import Mathlib

/-!
# Verification of the PsiNet core

A shallow embedding of the verification core of the PsiNet protocol
(`src/python/psinet_core.py` and `src/python/psinet_payment.py`), together
with theorems settling the specified properties of:

* the X402 payment gate (`PaymentManager.check_payment_for_context`,
  channel lifecycle, receipts and their verification);
* content-addressed context units (`ContextUnit.content_hash`,
  `PsiNetNode.create_context`) and chain verification
  (`PsiNetNode.verify_chain`);
* capability tokens (`PsiNetNode.check_access`).

Modelling conventions:

* Python `Decimal` amounts (decimal strings) are embedded as `ℚ`;
  `Decimal` comparison and subtraction on such values are exact, so `ℚ`
  is a faithful model of the operations the code performs.
* ISO-8601 timestamps, compared in the source via `datetime` objects, are
  embedded as `Nat` instants; "now" (`datetime.utcnow()`) is an explicit
  parameter.
* Python `dict`s (which preserve insertion order and are iterated in that
  order) are embedded as association lists; `dict[k] = v` for a fresh key
  appends, for an existing key replaces in place (`dictInsert`).
* SHA-256 hex digests are embedded as an explicit function parameter
  `sha : String → String`: the properties claimed never depend on the
  digest values themselves, only on which serialized bytes are hashed.
-/

namespace PsiNet

/-- Python `dict[k] = v`: replace the value at an existing key in place,
otherwise append the new binding at the end (insertion order). -/
def dictInsert {α : Type} (k : String) (v : α) : List (String × α) → List (String × α)
  | [] => [(k, v)]
  | (k', v') :: rest =>
    if k' = k then (k, v) :: rest else (k', v') :: dictInsert k v rest

/-! ### Payment data model (`psinet_payment.py`) -/

/-- `PaymentRequirement` dataclass: payment requirement for a context.
`amount` is a `Decimal` string in the source, embedded as `ℚ`;
`expires` is an optional ISO timestamp, embedded as `Option Nat`. -/
structure PaymentRequirement where
  pricing_model : String
  amount : ℚ
  currency : String
  recipient_address : String
  expires : Option Nat
  description : Option String
  deriving Repr, DecidableEq

/-- `PaymentRequirement.is_expired`: `False` when no expiry is set, else
`datetime.utcnow() > expires_dt` (strict). -/
def PaymentRequirement.is_expired (r : PaymentRequirement) (now : Nat) : Bool :=
  match r.expires with
  | none => false
  | some e => decide (e < now)

/-- `PaymentReceipt` dataclass. `status` ranges over the `PaymentStatus`
enum values `"pending" | "confirmed" | "failed" | "expired" | "refunded"`. -/
structure PaymentReceipt where
  receipt_id : String
  payment_requirement_id : String
  payer_did : String
  recipient_did : String
  amount : ℚ
  currency : String
  transaction_hash : String
  status : String
  timestamp : Nat
  context_id : Option String
  deriving Repr, DecidableEq

/-- `PaymentChannel` dataclass: Lightning-style micropayment channel.
`status` is one of `"open" | "closed" | "disputed"`. -/
structure PaymentChannel where
  channel_id : String
  payer_did : String
  recipient_did : String
  total_capacity : ℚ
  current_balance : ℚ
  currency : String
  opened : Nat
  expires : Nat
  status : String
  deriving Repr, DecidableEq

/-- `PaymentChannel.has_sufficient_balance`:
`Decimal(self.current_balance) >= Decimal(amount)`. -/
def PaymentChannel.has_sufficient_balance (c : PaymentChannel) (amount : ℚ) : Bool :=
  decide (amount ≤ c.current_balance)

/-- `X402Response` dataclass: HTTP 402 "Payment Required" response. -/
structure X402Response where
  status_code : Nat
  message : String
  payment_requirement : Option PaymentRequirement
  payment_methods_accepted : List String
  payment_endpoint : String
  deriving Repr, DecidableEq

/-- `PaymentManager` state: the three storage dicts plus the node's DID.
The `wallet_addresses` configuration dict is omitted: it is read only by
`generate_payment_invoice`, which no claim concerns. -/
structure PaymentManager where
  node_did : String
  payment_requirements : List (String × PaymentRequirement)
  payment_receipts : List PaymentReceipt
  payment_channels : List PaymentChannel
  deriving Repr, DecidableEq

/-- `PaymentManager.create_payment_requirement`: registers (keyed by
`context_id`) and returns a new requirement. The source computes `expires`
from `expires_in_hours`; the model takes the resulting optional instant. -/
def PaymentManager.create_payment_requirement (pm : PaymentManager)
    (context_id : String) (pricing_model : String) (amount : ℚ)
    (currency : String) (recipient_address : String) (expires : Option Nat)
    (description : Option String) : PaymentRequirement × PaymentManager :=
  let requirement : PaymentRequirement :=
    { pricing_model := pricing_model
      amount := amount
      currency := currency
      recipient_address := recipient_address
      expires := expires
      description := description }
  (requirement,
   { pm with payment_requirements :=
       dictInsert context_id requirement pm.payment_requirements })

/-- `PaymentManager.create_payment_receipt`: creates a receipt with status
`PaymentStatus.PENDING`. The source derives `receipt_id` from a SHA-256
digest over `payer:tx:time.time()` and sets `payment_requirement_id` to
the CPython object id of the requirement; both are opaque to every claim
and are taken as parameters. -/
def PaymentManager.create_payment_receipt (pm : PaymentManager)
    (payment_requirement : PaymentRequirement) (payer_did : String)
    (transaction_hash : String) (context_id : Option String)
    (receipt_id : String) (payment_requirement_id : String) (now : Nat) :
    PaymentReceipt × PaymentManager :=
  let receipt : PaymentReceipt :=
    { receipt_id := receipt_id
      payment_requirement_id := payment_requirement_id
      payer_did := payer_did
      recipient_did := pm.node_did
      amount := payment_requirement.amount
      currency := payment_requirement.currency
      transaction_hash := transaction_hash
      status := "pending"
      timestamp := now
      context_id := context_id }
  (receipt, { pm with payment_receipts := pm.payment_receipts ++ [receipt] })

/-- The currencies for which `PaymentManager.verify_payment` dispatches to a
`PaymentVerifier` stub; each stub unconditionally returns `True` in the
source, so `verified` ends up true exactly for these currencies. -/
def stubVerifiedCurrencies : List String :=
  ["bitcoin", "ethereum", "lightning", "arweave_ar"]

/-- `PaymentManager.verify_payment`: looks up the first requirement whose
currency matches the receipt's; with none it returns `False` early
(leaving the receipt status untouched). Otherwise dispatches to the stub
verifier for the currency and writes `CONFIRMED`/`FAILED` into the receipt
(the receipt object is aliased with the stored one, so the store entry
with the same `receipt_id` is updated too). Returns `verified`, the
updated receipt, and the updated manager. -/
def PaymentManager.verify_payment (pm : PaymentManager)
    (receipt : PaymentReceipt) : Bool × PaymentReceipt × PaymentManager :=
  match pm.payment_requirements.find? (fun p => p.2.currency = receipt.currency) with
  | none => (false, receipt, pm)
  | some _ =>
    let verified := stubVerifiedCurrencies.contains receipt.currency
    let status2 := if verified then "confirmed" else "failed"
    (verified, { receipt with status := status2 },
     { pm with payment_receipts :=
         pm.payment_receipts.map fun r =>
           if r.receipt_id = receipt.receipt_id then { r with status := status2 } else r })

/-- The channel-selection condition of the loop in
`check_payment_for_context`, on one channel:
`payer_did == requester_did and recipient_did == node_did and
status == "open" and has_sufficient_balance(amount)`. -/
def channelMatches (node_did requester_did : String) (amount : ℚ)
    (c : PaymentChannel) : Prop :=
  c.payer_did = requester_did ∧ c.recipient_did = node_did ∧
    c.status = "open" ∧ c.has_sufficient_balance amount = true

instance (node_did requester_did : String) (amount : ℚ) (c : PaymentChannel) :
    Decidable (channelMatches node_did requester_did amount c) := by
  unfold channelMatches; infer_instance

/-- The channel loop of `check_payment_for_context`: walk the channels in
dict (insertion) order; at the first channel satisfying `channelMatches`,
deduct exactly `amount` from `current_balance` and stop. `none` when no
channel matches. Note: the loop never consults `PaymentChannel.expires`. -/
def deductFromChannels (node_did requester_did : String) (amount : ℚ) :
    List PaymentChannel → Option (List PaymentChannel)
  | [] => none
  | c :: rest =>
    if channelMatches node_did requester_did amount c then
      some ({ c with current_balance := c.current_balance - amount } :: rest)
    else
      match deductFromChannels node_did requester_did amount rest with
      | none => none
      | some rest2 => some (c :: rest2)

/-- The receipt test of `check_payment_for_context`: some stored receipt has
`context_id == context_id and payer_did == requester_did and
status == PaymentStatus.CONFIRMED.value`. -/
def PaymentManager.hasConfirmedReceipt (pm : PaymentManager)
    (context_id requester_did : String) : Bool :=
  pm.payment_receipts.any fun r =>
    decide (r.context_id = some context_id ∧ r.payer_did = requester_did ∧
      r.status = "confirmed")

/-- `PaymentManager.check_payment_for_context` (the `authorize` decision):
`none` means access granted, `some response` means payment required.
Returns the (possibly channel-deducted) manager alongside. -/
def PaymentManager.check_payment_for_context (pm : PaymentManager) (now : Nat)
    (context_id requester_did : String) :
    Option X402Response × PaymentManager :=
  match pm.payment_requirements.lookup context_id with
  | none => (none, pm)
  | some requirement =>
    if requirement.is_expired now then (none, pm)
    else if pm.hasConfirmedReceipt context_id requester_did then (none, pm)
    else
      match deductFromChannels pm.node_did requester_did requirement.amount
          pm.payment_channels with
      | some channels2 => (none, { pm with payment_channels := channels2 })
      | none =>
        (some { status_code := 402
                message := "Payment Required"
                payment_requirement := some requirement
                payment_methods_accepted := ["bitcoin", "ethereum", "lightning"]
                payment_endpoint := "psinet://payments/" ++ pm.node_did },
         pm)

/-- `PaymentManager.open_payment_channel`: balance starts at full capacity,
status `"open"`, recipient is the node itself. The source derives
`channel_id` from a SHA-256 digest over `payer:node:time.time()` — fresh
with overwhelming probability — so the new dict entry is modelled as an
append; `opened`/`expires` instants are taken as parameters. -/
def PaymentManager.open_payment_channel (pm : PaymentManager)
    (channel_id payer_did : String) (total_capacity : ℚ) (currency : String)
    (opened expires : Nat) : PaymentChannel × PaymentManager :=
  let channel : PaymentChannel :=
    { channel_id := channel_id
      payer_did := payer_did
      recipient_did := pm.node_did
      total_capacity := total_capacity
      current_balance := total_capacity
      currency := currency
      opened := opened
      expires := expires
      status := "open" }
  (channel, { pm with payment_channels := pm.payment_channels ++ [channel] })

/-- `PaymentManager.close_payment_channel`: sets the status of the channel
with the given id to `"closed"` (balance untouched); no-op when absent. -/
def PaymentManager.close_payment_channel (pm : PaymentManager)
    (channel_id : String) : PaymentManager :=
  { pm with payment_channels :=
      pm.payment_channels.map fun c =>
        if c.channel_id = channel_id then { c with status := "closed" } else c }

/-! ### Canonical JSON (`json.dumps(..., sort_keys=True)`) -/

/-- JSON values, the payloads of context units. Numeric payloads are
embedded as integers; float formatting is platform presentation and no
claim depends on it. -/
inductive Json where
  | null : Json
  | bool (b : Bool) : Json
  | num (n : Int) : Json
  | str (s : String) : Json
  | arr (xs : List Json) : Json
  | obj (fields : List (String × Json)) : Json
  deriving Repr

/-- Lower-case hex digit, as CPython emits in `\u` escapes. -/
def hexDigit (n : Nat) : Char :=
  if n < 10 then Char.ofNat (48 + n) else Char.ofNat (87 + n)

/-- Four-digit hex rendering of a code unit. -/
def uHex4 (n : Nat) : String :=
  String.mk [hexDigit (n / 4096 % 16), hexDigit (n / 256 % 16),
    hexDigit (n / 16 % 16), hexDigit (n % 16)]

/-- CPython `json.dumps` escaping of one character (`ensure_ascii=True`):
named escapes, `\uXXXX` for other control and non-ASCII characters,
surrogate pairs beyond the BMP. -/
def escapeChar (c : Char) : String :=
  if c = '"' then "\\\""
  else if c = '\\' then "\\\\"
  else if c = '\n' then "\\n"
  else if c = '\r' then "\\r"
  else if c = '\t' then "\\t"
  else if c.toNat = 8 then "\\b"
  else if c.toNat = 12 then "\\f"
  else if c.toNat < 32 then "\\u" ++ uHex4 c.toNat
  else if c.toNat < 127 then String.singleton c
  else if c.toNat < 65536 then "\\u" ++ uHex4 c.toNat
  else
    let v := c.toNat - 65536
    "\\u" ++ uHex4 (55296 + v / 1024) ++ "\\u" ++ uHex4 (56320 + v % 1024)

/-- A JSON string literal with CPython escaping. -/
def dumpString (s : String) : String :=
  "\"" ++ String.join (s.toList.map escapeChar) ++ "\""

/-- Insert a rendered field into a key-sorted list of rendered fields. -/
def insertByKey (p : String × String) :
    List (String × String) → List (String × String)
  | [] => [p]
  | q :: rest =>
    if p.1 < q.1 then p :: q :: rest else q :: insertByKey p rest

/-- Sort rendered fields by key (`sort_keys=True`; dict keys are unique,
so stability is immaterial). -/
def sortByKey : List (String × String) → List (String × String)
  | [] => []
  | p :: rest => insertByKey p (sortByKey rest)

mutual

/-- `json.dumps(v, sort_keys=True)` with CPython's default separators
`", "` and `": "`: object keys are sorted recursively, array element
order is preserved. -/
def Json.dumps : Json → String
  | .null => "null"
  | .bool true => "true"
  | .bool false => "false"
  | .num n => toString n
  | .str s => dumpString s
  | .arr xs => "[" ++ String.intercalate ", " (Json.dumpsList xs) ++ "]"
  | .obj fs =>
    "\x7b" ++ String.intercalate ", "
      ((sortByKey (Json.dumpsFields fs)).map fun p =>
        dumpString p.1 ++ ": " ++ p.2) ++ "\x7d"

/-- Render each array element. -/
def Json.dumpsList : List Json → List String
  | [] => []
  | x :: xs => Json.dumps x :: Json.dumpsList xs

/-- Render each object field's value, keeping its key. -/
def Json.dumpsFields : List (String × Json) → List (String × String)
  | [] => []
  | (k, v) :: fs => (k, Json.dumps v) :: Json.dumpsFields fs

end

/-! ### Core data model (`psinet_core.py`) -/

/-- `ContextType` enum. -/
inductive ContextType where
  | CONVERSATION | MEMORY | SKILL | KNOWLEDGE | DOCUMENT | EMBEDDING
  deriving Repr, DecidableEq

/-- The string tag of a `ContextType` (`.value` in the source). -/
def ContextType.value : ContextType → String
  | .CONVERSATION => "conversation"
  | .MEMORY => "memory"
  | .SKILL => "skill"
  | .KNOWLEDGE => "knowledge"
  | .DOCUMENT => "document"
  | .EMBEDDING => "embedding"

/-- `AccessCapability` enum. -/
inductive AccessCapability where
  | READ | WRITE | SHARE | DELEGATE | ADMIN
  deriving Repr, DecidableEq

/-- The string tag of an `AccessCapability` (`.value` in the source). -/
def AccessCapability.value : AccessCapability → String
  | .READ => "read"
  | .WRITE => "write"
  | .SHARE => "share"
  | .DELEGATE => "delegate"
  | .ADMIN => "admin"

/-- `AccessToken` dataclass: time-limited capability token. -/
structure AccessToken where
  capability : String
  granted_to : String
  granted_by : String
  expires : Nat
  context_id : Option String
  signature : Option String
  deriving Repr, DecidableEq

/-- `AccessToken.is_expired`: `datetime.utcnow() > expires` (strict). -/
def AccessToken.is_expired (t : AccessToken) (now : Nat) : Bool :=
  decide (t.expires < now)

/-- Python truthiness of the `Optional[str]` argument in
`if context_id: ...` — `None` and the empty string are both falsy. -/
def truthy : Option String → Bool
  | none => false
  | some s => decide (s ≠ "")

/-- `PsiNetNode.check_access` (the token only; `self` is never read):
deny when expired, deny on capability mismatch, deny when a truthy
`context_id` is passed and differs from the token's bound context. -/
def check_access (token : AccessToken) (capability : AccessCapability)
    (context_id : Option String) (now : Nat) : Bool :=
  if token.is_expired now then false
  else if token.capability ≠ capability.value then false
  else if truthy context_id = true ∧ token.context_id ≠ context_id then false
  else true

/-- `ContextUnit` dataclass: one content-addressed unit of context. -/
structure ContextUnit where
  id : String
  type : String
  content : Json
  owner : String
  previous : Option String
  timestamp : String
  signature : Option String
  metadata : Option Json
  storage_refs : Option (List (String × String))
  deriving Repr

/-- The dict hashed by `ContextUnit.content_hash`: exactly the fields
`type, content, owner, previous, timestamp` (no id, signature, metadata
or storage refs). -/
def ContextUnit.hashPayload (u : ContextUnit) : Json :=
  Json.obj [("type", .str u.type), ("content", u.content),
    ("owner", .str u.owner),
    ("previous", match u.previous with | none => .null | some p => .str p),
    ("timestamp", .str u.timestamp)]

/-- `ContextUnit.content_hash`: SHA-256 hex digest of the sorted-key JSON
serialization of `hashPayload`; the digest function is a parameter. -/
def ContextUnit.content_hash (sha : String → String) (u : ContextUnit) : String :=
  sha (Json.dumps u.hashPayload)

/-- The second, distinct payload signed by `PsiNetNode._sign_context`:
`id, type, owner, timestamp` plus the recomputed content hash. -/
def ContextUnit.sigPayload (sha : String → String) (u : ContextUnit) : Json :=
  Json.obj [("id", .str u.id), ("type", .str u.type),
    ("owner", .str u.owner), ("timestamp", .str u.timestamp),
    ("content_hash", .str (u.content_hash sha))]

/-- `ContextChain` dataclass: an ordered list of context unit ids. -/
structure ContextChain where
  chain_id : String
  contexts : List String
  owner : String
  created : String
  deriving Repr, DecidableEq

/-- `PsiNetNode` state: the bound identity plus the context/chain stores
and issued tokens. Key material and on-disk persistence are I/O not
modelled; `did = none` before `generate_identity`. -/
structure PsiNetNode where
  did : Option String
  contexts : List (String × ContextUnit)
  chains : List (String × ContextChain)
  access_tokens : List AccessToken
  deriving Repr

/-- `PsiNetNode.create_context`: requires a bound identity; builds the
unit, sets `id := content_hash`, signs the `sigPayload` when a signing
backend is available (`signer`), and stores the unit keyed by its id.
`timestamp` (from `datetime.utcnow()`) is a parameter. -/
def PsiNetNode.create_context (sha : String → String)
    (signer : Option (String → String)) (node : PsiNetNode)
    (context_type : ContextType) (content : Json) (previous : Option String)
    (metadata : Option Json) (timestamp : String) :
    Except String (ContextUnit × PsiNetNode) :=
  match node.did with
  | none => .error "Identity required. Call generate_identity() first."
  | some did =>
    let context0 : ContextUnit :=
      { id := ""
        type := context_type.value
        content := content
        owner := did
        previous := previous
        timestamp := timestamp
        signature := none
        metadata := some (metadata.getD (Json.obj []))
        storage_refs := some [] }
    let context1 := { context0 with id := context0.content_hash sha }
    let context2 :=
      match signer with
      | none => context1
      | some sg =>
        { context1 with signature := some (sg (Json.dumps (context1.sigPayload sha))) }
    .ok (context2, { node with contexts := dictInsert context2.id context2 node.contexts })

/-- The loop body of `PsiNetNode.verify_chain`: walk the listed unit ids
with the expected-previous pointer; fail on a missing unit, a broken
`previous` link, or a content-hash mismatch; advance otherwise. -/
def goChain (sha : String → String) (store : List (String × ContextUnit)) :
    Option String → List String → Bool
  | _, [] => true
  | prev, cid :: rest =>
    match store.lookup cid with
    | none => false
    | some u =>
      if u.previous ≠ prev then false
      else if u.id ≠ u.content_hash sha then false
      else goChain sha store (some cid) rest

/-- `PsiNetNode.verify_chain`: `false` for an unknown chain id, else the
walk from a `null` expected-previous pointer over the chain's unit ids. -/
def PsiNetNode.verify_chain (sha : String → String) (node : PsiNetNode)
    (chain_id : String) : Bool :=
  match node.chains.lookup chain_id with
  | none => false
  | some chain => goChain sha node.contexts none chain.contexts

/-- The walk condition `verify_chain` decides, stated as the specification
words it: every listed unit exists in the store, its `previous` equals
the prior listed id (`none` first), and its id is its recomputed content
hash. -/
def chainWalk (sha : String → String) (store : List (String × ContextUnit)) :
    Option String → List String → Prop
  | _, [] => True
  | prev, cid :: rest =>
    ∃ u, store.lookup cid = some u ∧ u.previous = prev ∧
      u.id = u.content_hash sha ∧ chainWalk sha store (some cid) rest

/-! ### Predicates and the operation model for the payment state -/

/-- One mutating call on a `PaymentManager` (the operations of the payment
gate's public surface). Arguments that the source derives from wall-clock
time or hashing (`receipt_id`, `channel_id`, timestamps) are carried in
the operation. -/
inductive PaymentOp where
  | createRequirement (context_id pricing_model : String) (amount : ℚ)
      (currency recipient_address : String) (expires : Option Nat)
      (description : Option String)
  | createReceipt (requirement : PaymentRequirement)
      (payer_did transaction_hash : String) (context_id : Option String)
      (receipt_id payment_requirement_id : String) (now : Nat)
  | verifyReceipt (receipt : PaymentReceipt)
  | openChannel (channel_id payer_did : String) (total_capacity : ℚ)
      (currency : String) (opened expires : Nat)
  | authorize (now : Nat) (context_id requester_did : String)
  | closeChannel (channel_id : String)

/-- The state transition of one operation. -/
def PaymentManager.step (pm : PaymentManager) : PaymentOp → PaymentManager
  | .createRequirement cid pmod amt cur addr exp dsc =>
    (pm.create_payment_requirement cid pmod amt cur addr exp dsc).2
  | .createReceipt req payer tx ctx rid prid now =>
    (pm.create_payment_receipt req payer tx ctx rid prid now).2
  | .verifyReceipt rc => (pm.verify_payment rc).2.2
  | .openChannel chid payer cap cur op ex =>
    (pm.open_payment_channel chid payer cap cur op ex).2
  | .authorize now ctx rq => (pm.check_payment_for_context now ctx rq).2
  | .closeChannel chid => pm.close_payment_channel chid

/-- Run a sequence of operations. -/
def PaymentManager.run (pm : PaymentManager) : List PaymentOp → PaymentManager
  | [] => pm
  | op :: ops => (pm.step op).run ops

/-- The claimed channel balance invariant:
`0 <= current_balance <= total_capacity` for every stored channel. -/
def channelsOk (pm : PaymentManager) : Prop :=
  ∀ c ∈ pm.payment_channels, 0 ≤ c.current_balance ∧
    c.current_balance ≤ c.total_capacity

instance (pm : PaymentManager) : Decidable (channelsOk pm) := by
  unfold channelsOk; infer_instance

/-- Every registered payment requirement carries a nonnegative amount. -/
def reqAmountsOk (pm : PaymentManager) : Prop :=
  ∀ p ∈ pm.payment_requirements, 0 ≤ p.2.amount

instance (pm : PaymentManager) : Decidable (reqAmountsOk pm) := by
  unfold reqAmountsOk; infer_instance

/-- Nonnegativity side condition on one operation: registered requirement
amounts and opened channel capacities are nonnegative. -/
def opOk : PaymentOp → Prop
  | .createRequirement _ _ amt _ _ _ _ => 0 ≤ amt
  | .openChannel _ _ cap _ _ _ => 0 ≤ cap
  | _ => True

instance (op : PaymentOp) : Decidable (opOk op) := by
  unfold opOk; cases op <;> infer_instance

/-- Positionwise channel evolution: every channel position of the old list
survives in the new list (channels are never dropped or reordered), keeps
its id, and its balance never increases; the new list may extend the old
one at the end. -/
def channelsLE : List PaymentChannel → List PaymentChannel → Prop
  | [], _ => True
  | _ :: _, [] => False
  | c :: cs, d :: ds =>
    d.channel_id = c.channel_id ∧ d.current_balance ≤ c.current_balance ∧
      channelsLE cs ds

/-- Rewrite every channel's `expires` field (used to state that the
authorize decision never reads channel expiry). -/
def mapChannelExpires (f : Nat → Nat) (pm : PaymentManager) : PaymentManager :=
  { pm with payment_channels :=
      pm.payment_channels.map fun c => { c with expires := f c.expires } }

/-! ### Concrete fixtures for witnesses and counterexamples -/

/-- An unexpired token for capability `read`, bound to context `"ctx1"`. -/
def tok10 : AccessToken :=
  { capability := "read", granted_to := "b", granted_by := "a",
    expires := 100, context_id := some "ctx1", signature := none }

/-- A token bound to `"ctx1"`, queried below with the empty-string
context id. -/
def tok5 : AccessToken :=
  { capability := "read", granted_to := "b", granted_by := "a",
    expires := 100, context_id := some "ctx1", signature := none }

/-- An unexpired `read` token with no bound context. -/
def tok6 : AccessToken :=
  { capability := "read", granted_to := "b", granted_by := "a",
    expires := 100, context_id := none, signature := none }

/-- A digest function for chain fixtures (any function works: the theorems
are digest-generic). -/
def shaW : String → String := fun _ => "H"

/-- A self-consistent stored unit: its id is its content hash under
`shaW`. -/
def unitW : ContextUnit :=
  { id := "H", type := "memory", content := Json.obj [], owner := "o",
    previous := none, timestamp := "t", signature := none,
    metadata := none, storage_refs := none }

/-- A one-element chain over `unitW`. -/
def chainW : ContextChain :=
  { chain_id := "c", contexts := ["a"], owner := "o", created := "t" }

/-- A node holding `unitW` (under store key `"a"`) and `chainW`. -/
def nodeW : PsiNetNode :=
  { did := some "o", contexts := [("a", unitW)], chains := [("c", chainW)],
    access_tokens := [] }

/-- A node with a bound identity and empty stores. -/
def node3 : PsiNetNode :=
  { did := some "o", contexts := [], chains := [], access_tokens := [] }

/-- An unexpired pay-per-access requirement of amount 1. -/
def req1 : PaymentRequirement :=
  { pricing_model := "pay_per_access", amount := 1, currency := "bitcoin",
    recipient_address := "addr", expires := none, description := none }

/-- An open channel from payer `"p"` to node `"n"`, balance 5 of 5, whose
expiry instant is 10. -/
def ch1 : PaymentChannel :=
  { channel_id := "ch", payer_did := "p", recipient_did := "n",
    total_capacity := 5, current_balance := 5, currency := "bitcoin",
    opened := 0, expires := 10, status := "open" }

/-- A manager with `req1` registered for context `"ctx"` and channel
`ch1` open. -/
def pm1 : PaymentManager :=
  { node_did := "n", payment_requirements := [("ctx", req1)],
    payment_receipts := [], payment_channels := [ch1] }

/-- An empty manager for node `"n"`. -/
def pm0 : PaymentManager :=
  { node_did := "n", payment_requirements := [], payment_receipts := [],
    payment_channels := [] }

/-- A pending receipt in bitcoin. -/
def rc8 : PaymentReceipt :=
  { receipt_id := "r1", payment_requirement_id := "q1", payer_did := "p",
    recipient_did := "n", amount := 1, currency := "bitcoin",
    transaction_hash := "tx", status := "pending", timestamp := 0,
    context_id := some "ctx" }

/-- A manager holding only the pending receipt `rc8` and no payment
requirements at all. -/
def pm8 : PaymentManager :=
  { node_did := "n", payment_requirements := [], payment_receipts := [rc8],
    payment_channels := [] }

/-- A requirement with the (expressible) negative decimal amount `-1`. -/
def reqN : PaymentRequirement :=
  { pricing_model := "pay_per_access", amount := -1, currency := "bitcoin",
    recipient_address := "addr", expires := none, description := none }

/-- The channel produced by `openChannel "ch" "p" 1 "bitcoin" 0 100` on a
node with DID `"n"`. -/
def chA : PaymentChannel :=
  { channel_id := "ch", payer_did := "p", recipient_did := "n",
    total_capacity := 1, current_balance := 1, currency := "bitcoin",
    opened := 0, expires := 100, status := "open" }

/-- The manager state after registering `reqN` for `"ctx"` and opening
`chA`. -/
def pmB : PaymentManager :=
  { node_did := "n", payment_requirements := [("ctx", reqN)],
    payment_receipts := [], payment_channels := [chA] }

/-- Operations registering a requirement of amount `-1` and then
authorizing against a fresh channel of capacity 1; followed by an open
with capacity `-1` (both amounts are expressible `Decimal` strings). -/
def ops2c : List PaymentOp :=
  [.createRequirement "ctx" "pay_per_access" (-1) "bitcoin" "addr" none none,
   .openChannel "ch" "p" 1 "bitcoin" 0 100,
   .authorize 0 "ctx" "p"]

/-- A single open with negative capacity. -/
def ops2o : List PaymentOp :=
  [.openChannel "ch" "p" (-1) "bitcoin" 0 100]

/-- A benign operation sequence: register amount 1 for `"ctx"`, open a
channel of capacity 5, authorize twice. -/
def ops2w : List PaymentOp :=
  [.createRequirement "ctx" "pay_per_access" 1 "bitcoin" "addr" none none,
   .openChannel "ch" "p" 5 "bitcoin" 0 100,
   .authorize 0 "ctx" "p",
   .authorize 0 "ctx" "p"]

/-! ### Access-control theorems (`check_access`) -/

/-- C10: with no `context_id` argument the token's bound context is never
compared — every unexpired token with the matching capability passes,
even when bound to a specific context. -/
theorem check_access_unscoped_query (token : AccessToken)
    (capability : AccessCapability) (now : Nat)
    (hexp : token.is_expired now = false)
    (hcap : token.capability = capability.value) :
    check_access token capability none now = true := by
  simp [check_access, hexp, hcap, truthy]

/-- C10 witness: `tok10` is bound to `"ctx1"` yet passes an unscoped
`READ` query. -/
theorem check_access_unscoped_query_witness :
    check_access tok10 AccessCapability.READ none 0 = true :=
  check_access_unscoped_query tok10 AccessCapability.READ 0 rfl rfl

/-- C5 counterexample: `tok5` is unexpired, carries the queried capability
and is bound to `"ctx1"`; the caller requires the specific context id
`""`, which differs from the bound context, yet `check_access` returns
`true` —  the claim demands `false` here. (Python truthiness: the empty
string skips the context comparison.) -/
theorem check_access_empty_query_cex :
    tok5.is_expired 0 = false ∧
    tok5.capability = AccessCapability.READ.value ∧
    tok5.context_id ≠ some "" ∧
    check_access tok5 AccessCapability.READ (some "") 0 = true := by
  refine ⟨rfl, rfl, by decide, rfl⟩

/-- C5 amended: `check_access` fails closed — `false` when expired, on
capability mismatch, or when a non-empty context id is required and the
token's bound context differs (an empty-string context id is falsy in
Python and is treated like `None`); in particular an expired token fails
for every capability. -/
theorem check_access_fails_closed (token : AccessToken)
    (capability : AccessCapability) (context_id : Option String) (now : Nat) :
    (token.is_expired now = true →
      check_access token capability context_id now = false) ∧
    (token.capability ≠ capability.value →
      check_access token capability context_id now = false) ∧
    (∀ c, context_id = some c → c ≠ "" → token.context_id ≠ some c →
      check_access token capability context_id now = false) := by
  refine ⟨fun h => by simp [check_access, h], fun h => ?_, fun c hc hne hbound => ?_⟩
  · by_cases hexp : token.is_expired now <;> simp [check_access, hexp, h]
  · subst hc
    by_cases hexp : token.is_expired now
    · simp [check_access, hexp]
    · by_cases hcap : token.capability = capability.value <;>
        simp [check_access, hexp, hcap, truthy, hne, hbound]

/-- C5 witness: the expired-token clause at a concrete input — `tok5`
expires at 100, so at time 200 even the exactly matching `READ` query is
denied. -/
theorem check_access_fails_closed_witness :
    check_access tok5 AccessCapability.READ none 200 = false :=
  (check_access_fails_closed tok5 AccessCapability.READ none 200).1 rfl

/-- C6 counterexample: `tok6` is unexpired, matches `READ` and has no
bound context, yet a query naming context `"ctx1"` is denied — the code
compares `None != "ctx1"` and fails closed, while the claim demands that
an unbound token match any context query. -/
theorem unbound_token_scoped_query_cex :
    tok6.is_expired 0 = false ∧
    tok6.capability = AccessCapability.READ.value ∧
    tok6.context_id = none ∧
    check_access tok6 AccessCapability.READ (some "ctx1") 0 = false := by
  refine ⟨rfl, rfl, rfl, rfl⟩

/-- C6 amended: an unexpired token with matching capability and no bound
context passes exactly the queries whose context id is falsy (`none` or
the empty string); any non-empty queried context id is denied. -/
theorem unbound_token_iff_falsy_query (token : AccessToken)
    (capability : AccessCapability) (context_id : Option String) (now : Nat)
    (hexp : token.is_expired now = false)
    (hcap : token.capability = capability.value)
    (hbound : token.context_id = none) :
    check_access token capability context_id now = true ↔
      truthy context_id = false := by
  cases context_id with
  | none => simp [check_access, hexp, hcap, truthy]
  | some s =>
    by_cases hs : s = "" <;>
      simp [check_access, hexp, hcap, hbound, truthy, hs]

/-- C6 witness: `tok6` (no bound context) passes the unscoped query. -/
theorem unbound_token_iff_falsy_query_witness :
    check_access tok6 AccessCapability.READ none 0 = true :=
  (unbound_token_iff_falsy_query tok6 AccessCapability.READ none 0
    rfl rfl rfl).mpr rfl

/-! ### Content addressing and chain verification -/

/-- C3: a unit freshly created by `create_context` has
`id = sha256hex(dumps-sorted of exactly {type, content, owner, previous,
timestamp})`, so recomputing its content hash yields its id (the later
signature assignment touches none of the hashed fields). Holds for every
digest function and optional signing backend. -/
theorem create_context_id_spec (sha : String → String)
    (signer : Option (String → String)) (node : PsiNetNode)
    (context_type : ContextType) (content : Json) (previous : Option String)
    (metadata : Option Json) (timestamp : String) (d : String)
    (hdid : node.did = some d) :
    ∃ u node2,
      PsiNetNode.create_context sha signer node context_type content previous
        metadata timestamp = .ok (u, node2) ∧
      u.id = sha (Json.dumps u.hashPayload) ∧
      u.id = u.content_hash sha := by
  simp only [PsiNetNode.create_context, hdid]
  cases signer <;> exact ⟨_, _, rfl, rfl, rfl⟩

/-- C3 witness: creating a memory unit on `node3` with no signing backend;
the hypotheses are discharged at the concrete node. -/
theorem create_context_id_spec_witness :
    ∃ u node2,
      PsiNetNode.create_context shaW none node3 ContextType.MEMORY
        (Json.obj [("memory", Json.str "x")]) none none "ts" = .ok (u, node2) ∧
      u.id = shaW (Json.dumps u.hashPayload) ∧
      u.id = u.content_hash shaW :=
  create_context_id_spec shaW none node3 ContextType.MEMORY
    (Json.obj [("memory", Json.str "x")]) none none "ts" "o" rfl

/-- The walk loop returns `true` exactly when the walk condition holds:
every listed unit is in the store, links to the expected previous id and
matches its recomputed content hash. -/
theorem goChain_eq_true_iff (sha : String → String)
    (store : List (String × ContextUnit)) :
    ∀ (l : List String) (prev : Option String),
      goChain sha store prev l = true ↔ chainWalk sha store prev l := by
  intro l
  induction l with
  | nil => intro prev; simp [goChain, chainWalk]
  | cons cid rest ih =>
    intro prev
    rw [goChain, chainWalk]
    cases hl : store.lookup cid with
    | none => simp
    | some u =>
      by_cases h1 : u.previous = prev
      · by_cases h2 : u.id = u.content_hash sha
        · simp [h1, h2, ih]
        · simp [h1, h2]
      · simp [h1]

/-- C4: for a chain id present in the chain store, `verify_chain` returns
`true` exactly when the in-order walk with an expected-previous pointer
starting at `none` finds every listed unit, with matching `previous`
link and content hash; and the walk returns `false` at the first
violating unit for every possible continuation of the list (the later
units are never examined). -/
theorem verify_chain_iff (sha : String → String) (node : PsiNetNode)
    (chain_id : String) (chain : ContextChain)
    (hlk : node.chains.lookup chain_id = some chain) :
    (node.verify_chain sha chain_id = true ↔
      chainWalk sha node.contexts none chain.contexts) ∧
    (∀ prev cid rest,
      (node.contexts.lookup cid = none ∨
        ∃ u, node.contexts.lookup cid = some u ∧
          (u.previous ≠ prev ∨ u.id ≠ u.content_hash sha)) →
      goChain sha node.contexts prev (cid :: rest) = false) := by
  constructor
  · rw [PsiNetNode.verify_chain, hlk]
    exact goChain_eq_true_iff sha node.contexts chain.contexts none
  · intro prev cid rest h
    rw [goChain]
    rcases h with h | ⟨u, hu, hbad⟩
    · rw [h]
    · rw [hu]
      rcases hbad with hbad | hbad
      · simp [hbad]
      · by_cases h1 : u.previous = prev <;> simp [h1, hbad]

/-- C4 witness: the one-element chain `chainW` over the self-consistent
unit `unitW` verifies, hence satisfies the walk condition. -/
theorem verify_chain_iff_witness :
    chainWalk shaW nodeW.contexts none ["a"] :=
  ((verify_chain_iff shaW nodeW "c" chainW rfl).1).mp rfl

/-! ### The authorize decision (`check_payment_for_context`) -/

/-- The channel loop finds no channel exactly when no stored channel
satisfies the selection condition. -/
theorem deduct_eq_none_iff (nd rq : String) (a : ℚ) (l : List PaymentChannel) :
    deductFromChannels nd rq a l = none ↔ ∀ c ∈ l, ¬ channelMatches nd rq a c := by
  induction l with
  | nil => simp [deductFromChannels]
  | cons c rest ih =>
    rw [deductFromChannels]
    by_cases h : channelMatches nd rq a c
    · rw [if_pos h]
      exact iff_of_false (by simp) (fun hall => hall c (List.mem_cons_self c rest) h)
    · rw [if_neg h]
      cases hd : deductFromChannels nd rq a rest with
      | none =>
        refine iff_of_true rfl ?_
        intro c' hc'
        rcases List.mem_cons.mp hc' with rfl | hc'
        · exact h
        · exact ih.mp hd c' hc'
      | some r2 =>
        refine iff_of_false (by simp) (fun hall => ?_)
        have hnone : deductFromChannels nd rq a rest = none :=
          ih.mpr (fun c' hc' => hall c' (List.mem_cons_of_mem c hc'))
        rw [hnone] at hd
        exact Option.noConfusion hd

/-- When position `i` holds the first matching channel, the loop deducts
exactly `a` from that channel and leaves every other channel unchanged. -/
theorem deduct_eq_set_of_first_match (nd rq : String) (a : ℚ) :
    ∀ (l : List PaymentChannel) (i : Nat) (hi : i < l.length),
      channelMatches nd rq a (l.get ⟨i, hi⟩) →
      (∀ j, (hj : j < i) → ¬ channelMatches nd rq a (l.get ⟨j, Nat.lt_trans hj hi⟩)) →
      deductFromChannels nd rq a l =
        some (l.set i { l.get ⟨i, hi⟩ with current_balance :=
          (l.get ⟨i, hi⟩).current_balance - a }) := by
  intro l
  induction l with
  | nil => intro i hi; exact absurd hi (by simp)
  | cons c rest ih =>
    intro i hi hmatch hfirst
    cases i with
    | zero =>
      have hm0 : channelMatches nd rq a c := hmatch
      rw [deductFromChannels, if_pos hm0]
      exact rfl
    | succ n =>
      have hc : ¬ channelMatches nd rq a c := hfirst 0 (Nat.succ_pos n)
      have hrec := ih n (Nat.lt_of_succ_lt_succ hi) hmatch
        (fun j hj => hfirst (j + 1) (Nat.succ_lt_succ hj))
      rw [deductFromChannels, if_neg hc, hrec]
      exact rfl

/-- Branch equation: no requirement registered for the context. -/
theorem check_none_of_noreq (pm : PaymentManager) (now : Nat) (ctx rq : String)
    (hl : pm.payment_requirements.lookup ctx = none) :
    pm.check_payment_for_context now ctx rq = (none, pm) := by
  simp [PaymentManager.check_payment_for_context, hl]

/-- Branch equation: the registered requirement has lapsed. -/
theorem check_none_of_expired (pm : PaymentManager) (now : Nat) (ctx rq : String)
    (r : PaymentRequirement) (hl : pm.payment_requirements.lookup ctx = some r)
    (hexp : r.is_expired now = true) :
    pm.check_payment_for_context now ctx rq = (none, pm) := by
  simp [PaymentManager.check_payment_for_context, hl, hexp]

/-- Branch equation: a confirmed receipt covers the pair. -/
theorem check_none_of_receipt (pm : PaymentManager) (now : Nat) (ctx rq : String)
    (r : PaymentRequirement) (hl : pm.payment_requirements.lookup ctx = some r)
    (hexp : r.is_expired now = false)
    (hrec : pm.hasConfirmedReceipt ctx rq = true) :
    pm.check_payment_for_context now ctx rq = (none, pm) := by
  simp [PaymentManager.check_payment_for_context, hl, hexp, hrec]

/-- Branch equation: the channel loop found a channel to deduct from. -/
theorem check_of_deduct (pm : PaymentManager) (now : Nat) (ctx rq : String)
    (r : PaymentRequirement) (ch2 : List PaymentChannel)
    (hl : pm.payment_requirements.lookup ctx = some r)
    (hexp : r.is_expired now = false)
    (hrec : pm.hasConfirmedReceipt ctx rq = false)
    (hd : deductFromChannels pm.node_did rq r.amount pm.payment_channels = some ch2) :
    pm.check_payment_for_context now ctx rq =
      (none, { pm with payment_channels := ch2 }) := by
  simp [PaymentManager.check_payment_for_context, hl, hexp, hrec, hd]

/-- Branch equation: nothing covers the requirement — the 402 response. -/
theorem check_payment_required (pm : PaymentManager) (now : Nat) (ctx rq : String)
    (r : PaymentRequirement)
    (hl : pm.payment_requirements.lookup ctx = some r)
    (hexp : r.is_expired now = false)
    (hrec : pm.hasConfirmedReceipt ctx rq = false)
    (hd : deductFromChannels pm.node_did rq r.amount pm.payment_channels = none) :
    pm.check_payment_for_context now ctx rq =
      (some { status_code := 402
              message := "Payment Required"
              payment_requirement := some r
              payment_methods_accepted := ["bitcoin", "ethereum", "lightning"]
              payment_endpoint := "psinet://payments/" ++ pm.node_did },
       pm) := by
  simp [PaymentManager.check_payment_for_context, hl, hexp, hrec, hd]

/-- C1: `check_payment_for_context` grants (returns `none`) exactly when
no requirement is registered for the context, or the requirement has
lapsed, or a confirmed receipt exists for the (context, requester) pair,
or some open channel from the requester to the node has sufficient
balance; when the grant goes through the channel step, exactly
`requirement.amount` is deducted from the first matching channel and no
other channel changes; otherwise the result is a response with status
code 402 carrying the registered requirement, and the state is
unchanged. -/
theorem authorize_grant_iff (pm : PaymentManager) (now : Nat) (ctx rq : String) :
    ((pm.check_payment_for_context now ctx rq).1 = none ↔
      pm.payment_requirements.lookup ctx = none ∨
      (∃ r, pm.payment_requirements.lookup ctx = some r ∧
        r.is_expired now = true) ∨
      pm.hasConfirmedReceipt ctx rq = true ∨
      (∃ r, pm.payment_requirements.lookup ctx = some r ∧
        ∃ c ∈ pm.payment_channels, channelMatches pm.node_did rq r.amount c)) ∧
    (∀ r, pm.payment_requirements.lookup ctx = some r →
      r.is_expired now = false →
      pm.hasConfirmedReceipt ctx rq = false →
      ∀ i, (hi : i < pm.payment_channels.length) →
      channelMatches pm.node_did rq r.amount (pm.payment_channels.get ⟨i, hi⟩) →
      (∀ j, (hj : j < i) → ¬ channelMatches pm.node_did rq r.amount
          (pm.payment_channels.get ⟨j, Nat.lt_trans hj hi⟩)) →
      (pm.check_payment_for_context now ctx rq).1 = none ∧
      (pm.check_payment_for_context now ctx rq).2.payment_channels =
        pm.payment_channels.set i
          { pm.payment_channels.get ⟨i, hi⟩ with current_balance :=
              (pm.payment_channels.get ⟨i, hi⟩).current_balance - r.amount }) ∧
    (∀ resp, (pm.check_payment_for_context now ctx rq).1 = some resp →
      resp.status_code = 402 ∧
      (∃ r, pm.payment_requirements.lookup ctx = some r ∧
        resp.payment_requirement = some r) ∧
      (pm.check_payment_for_context now ctx rq).2 = pm) := by
  refine ⟨?_, ?_, ?_⟩
  · cases hl : pm.payment_requirements.lookup ctx with
    | none =>
      rw [check_none_of_noreq pm now ctx rq hl]
      exact iff_of_true rfl (Or.inl rfl)
    | some r =>
      cases hexp : r.is_expired now with
      | true =>
        rw [check_none_of_expired pm now ctx rq r hl hexp]
        exact iff_of_true rfl (Or.inr (Or.inl ⟨r, rfl, hexp⟩))
      | false =>
        cases hrec : pm.hasConfirmedReceipt ctx rq with
        | true =>
          rw [check_none_of_receipt pm now ctx rq r hl hexp hrec]
          exact iff_of_true rfl (Or.inr (Or.inr (Or.inl rfl)))
        | false =>
          cases hd : deductFromChannels pm.node_did rq r.amount
              pm.payment_channels with
          | some ch2 =>
            rw [check_of_deduct pm now ctx rq r ch2 hl hexp hrec hd]
            refine iff_of_true rfl
              (Or.inr (Or.inr (Or.inr ⟨r, rfl, ?_⟩)))
            by_contra hno
            push_neg at hno
            rw [(deduct_eq_none_iff pm.node_did rq r.amount
              pm.payment_channels).mpr hno] at hd
            exact Option.noConfusion hd
          | none =>
            rw [check_payment_required pm now ctx rq r hl hexp hrec hd]
            refine iff_of_false (by simp) ?_
            rintro (h | ⟨r', hr', hexp'⟩ | h | ⟨r', hr', c, hc, hm⟩)
            · exact Option.noConfusion h
            · cases hr'
              rw [hexp] at hexp'
              exact Bool.noConfusion hexp'
            · exact Bool.noConfusion h
            · cases hr'
              exact (deduct_eq_none_iff pm.node_did rq r.amount
                pm.payment_channels).mp hd c hc hm
  · intro r hl hexp hrec i hi hmatch hfirst
    have hd := deduct_eq_set_of_first_match pm.node_did rq r.amount
      pm.payment_channels i hi hmatch hfirst
    rw [check_of_deduct pm now ctx rq r _ hl hexp hrec hd]
    exact ⟨rfl, rfl⟩
  · intro resp hresp
    cases hl : pm.payment_requirements.lookup ctx with
    | none =>
      rw [check_none_of_noreq pm now ctx rq hl] at hresp
      exact Option.noConfusion hresp
    | some r =>
      cases hexp : r.is_expired now with
      | true =>
        rw [check_none_of_expired pm now ctx rq r hl hexp] at hresp
        exact Option.noConfusion hresp
      | false =>
        cases hrec : pm.hasConfirmedReceipt ctx rq with
        | true =>
          rw [check_none_of_receipt pm now ctx rq r hl hexp hrec] at hresp
          exact Option.noConfusion hresp
        | false =>
          cases hd : deductFromChannels pm.node_did rq r.amount
              pm.payment_channels with
          | some ch2 =>
            rw [check_of_deduct pm now ctx rq r ch2 hl hexp hrec hd] at hresp
            exact Option.noConfusion hresp
          | none =>
            have heq := check_payment_required pm now ctx rq r hl hexp hrec hd
            rw [heq] at hresp
            have hresp2 : some
                ({ status_code := 402
                   message := "Payment Required"
                   payment_requirement := some r
                   payment_methods_accepted := ["bitcoin", "ethereum", "lightning"]
                   payment_endpoint := "psinet://payments/" ++ pm.node_did } :
                  X402Response) = some resp := hresp
            injection hresp2 with hresp3
            subst hresp3
            exact ⟨rfl, ⟨r, rfl, rfl⟩, by rw [heq]⟩

/-- C1 witness: on `pm1` (requirement of amount 1 for `"ctx"`, open
channel of balance 5) the requester `"p"` is granted and the channel
balance drops to exactly 4. -/
theorem authorize_grant_iff_witness :
    (pm1.check_payment_for_context 0 "ctx" "p").1 = none ∧
    (pm1.check_payment_for_context 0 "ctx" "p").2.payment_channels =
      pm1.payment_channels.set 0
        { pm1.payment_channels.get ⟨0, by decide⟩ with current_balance :=
            (pm1.payment_channels.get ⟨0, by decide⟩).current_balance -
              req1.amount } :=
  (authorize_grant_iff pm1 0 "ctx" "p").2.1 req1 rfl rfl rfl 0 (by decide)
    (by decide) (fun j hj => absurd hj (Nat.not_lt_zero j))

/-! ### Channel expiry is never consulted by authorize -/

/-- C7 counterexample: in `pm1` the only channel expires at instant 10;
at time 100 the channel is past expiry, yet `check_payment_for_context`
grants access through it and deducts the amount (balance 5 drops to 4) —
the claim demands that an expired channel never be deducted from. -/
theorem expired_channel_deducted_cex :
    ch1.expires < 100 ∧
    (pm1.check_payment_for_context 100 "ctx" "p").1 = none ∧
    (pm1.check_payment_for_context 100 "ctx" "p").2.payment_channels.map
      (fun c => c.current_balance) = [4] := by
  have hd : deductFromChannels "n" "p" req1.amount [ch1] =
      some [{ ch1 with current_balance := ch1.current_balance - req1.amount }] := by
    rw [deductFromChannels, if_pos (by decide)]
  have heq := check_of_deduct pm1 100 "ctx" "p" req1 _ rfl rfl rfl hd
  refine ⟨by decide, ?_, ?_⟩
  · rw [heq]
  · rw [heq]
    show [ch1.current_balance - req1.amount] = [4]
    norm_num [ch1, req1]

/-- The channel loop commutes with rewriting every channel's `expires`
field: channel selection and deduction never read it. -/
theorem deduct_map_expires (f : Nat → Nat) (nd rq : String) (a : ℚ) :
    ∀ l : List PaymentChannel,
      deductFromChannels nd rq a
          (l.map (fun c => { c with expires := f c.expires })) =
        (deductFromChannels nd rq a l).map
          (List.map (fun c => { c with expires := f c.expires })) := by
  intro l
  induction l with
  | nil => rfl
  | cons c rest ih =>
    by_cases h : channelMatches nd rq a c
    · have h' : channelMatches nd rq a { c with expires := f c.expires } := h
      rw [List.map_cons, deductFromChannels, if_pos h',
        deductFromChannels, if_pos h]
      rfl
    · have h' : ¬ channelMatches nd rq a { c with expires := f c.expires } := h
      rw [List.map_cons, deductFromChannels, if_neg h',
        deductFromChannels, if_neg h, ih]
      cases hd : deductFromChannels nd rq a rest with
      | none => rfl
      | some r2 => rfl

/-- C7 amended: `check_payment_for_context` never consults channel
expiry — for every rewriting `f` of all channels' `expires` timestamps
the decision is unchanged and the resulting state is the rewriting of
the original resulting state; in particular an open channel with
sufficient balance whose `expires` lies in the past is still selected
and deducted from (expiry-at-call-time checking holds for the payment
requirement via `is_expired`, but not for channels). -/
theorem authorize_ignores_channel_expiry (f : Nat → Nat)
    (pm : PaymentManager) (now : Nat) (ctx rq : String) :
    ((mapChannelExpires f pm).check_payment_for_context now ctx rq).1 =
      (pm.check_payment_for_context now ctx rq).1 ∧
    ((mapChannelExpires f pm).check_payment_for_context now ctx rq).2 =
      mapChannelExpires f ((pm.check_payment_for_context now ctx rq).2) := by
  cases hl : pm.payment_requirements.lookup ctx with
  | none =>
    rw [check_none_of_noreq pm now ctx rq hl,
      check_none_of_noreq (mapChannelExpires f pm) now ctx rq hl]
    exact ⟨rfl, rfl⟩
  | some r =>
    cases hexp : r.is_expired now with
    | true =>
      rw [check_none_of_expired pm now ctx rq r hl hexp,
        check_none_of_expired (mapChannelExpires f pm) now ctx rq r hl hexp]
      exact ⟨rfl, rfl⟩
    | false =>
      cases hrec : pm.hasConfirmedReceipt ctx rq with
      | true =>
        rw [check_none_of_receipt pm now ctx rq r hl hexp hrec,
          check_none_of_receipt (mapChannelExpires f pm) now ctx rq r hl hexp hrec]
        exact ⟨rfl, rfl⟩
      | false =>
        have hmap := deduct_map_expires f pm.node_did rq r.amount
          pm.payment_channels
        cases hd : deductFromChannels pm.node_did rq r.amount
            pm.payment_channels with
        | some ch2 =>
          rw [hd] at hmap
          rw [check_of_deduct pm now ctx rq r ch2 hl hexp hrec hd,
            check_of_deduct (mapChannelExpires f pm) now ctx rq r _ hl hexp hrec hmap]
          exact ⟨rfl, rfl⟩
        | none =>
          rw [hd] at hmap
          rw [check_payment_required pm now ctx rq r hl hexp hrec hd,
            check_payment_required (mapChannelExpires f pm) now ctx rq r hl hexp hrec hmap]
          exact ⟨rfl, rfl⟩

/-! ### Receipt lifecycle (`create_payment_receipt` / `verify_payment`) -/

/-- C8 counterexample: `pm8` stores the pending receipt `rc8` but no
payment requirement at all, so `verify_payment` takes its early return:
it reports `false` and leaves the receipt status `"pending"` — both in
the returned receipt and in the store — although the claim demands that
the status be CONFIRMED or FAILED (no longer PENDING) after the call. -/
theorem verify_payment_pending_cex :
    (pm8.verify_payment rc8).1 = false ∧
    (pm8.verify_payment rc8).2.1.status = "pending" ∧
    (pm8.verify_payment rc8).2.2.payment_receipts.map (fun r => r.status) =
      ["pending"] :=
  ⟨rfl, rfl, rfl⟩

/-- C8 amended: `create_payment_receipt` always creates the receipt with
status `"pending"`. When some registered requirement has the receipt's
currency, `verify_payment` returns the stub verification outcome (true
exactly for the currencies with a stub verifier), writes `"confirmed"`
on success and `"failed"` on failure, so the status is no longer
pending. When no requirement with that currency exists, it returns
`false` early and the receipt — and the whole manager — are unchanged,
so a pending receipt stays pending. -/
theorem receipt_lifecycle (pm : PaymentManager) (req : PaymentRequirement)
    (payer tx : String) (ctx : Option String) (rid prid : String) (now : Nat)
    (receipt : PaymentReceipt) :
    ((pm.create_payment_receipt req payer tx ctx rid prid now).1.status =
      "pending") ∧
    (∀ r0, pm.payment_requirements.find?
        (fun p => p.2.currency = receipt.currency) = some r0 →
      ((pm.verify_payment receipt).1 =
        stubVerifiedCurrencies.contains receipt.currency) ∧
      ((pm.verify_payment receipt).1 = true →
        (pm.verify_payment receipt).2.1.status = "confirmed") ∧
      ((pm.verify_payment receipt).1 = false →
        (pm.verify_payment receipt).2.1.status = "failed") ∧
      (pm.verify_payment receipt).2.1.status ≠ "pending") ∧
    (pm.payment_requirements.find?
        (fun p => p.2.currency = receipt.currency) = none →
      (pm.verify_payment receipt).1 = false ∧
      (pm.verify_payment receipt).2.1 = receipt ∧
      (pm.verify_payment receipt).2.2 = pm) := by
  refine ⟨rfl, ?_, ?_⟩
  · intro r0 hf
    rw [PaymentManager.verify_payment, hf]
    cases hv : stubVerifiedCurrencies.contains receipt.currency with
    | true =>
      refine ⟨rfl, fun _ => rfl, fun h => ?_, fun h => ?_⟩
      · exact absurd (show (true : Bool) = false from h) (by decide)
      · exact absurd (show ("confirmed" : String) = "pending" from h) (by decide)
    | false =>
      refine ⟨rfl, fun h => ?_, fun _ => rfl, fun h => ?_⟩
      · exact absurd (show (false : Bool) = true from h) (by decide)
      · exact absurd (show ("failed" : String) = "pending" from h) (by decide)
  · intro hf
    rw [PaymentManager.verify_payment, hf]
    exact ⟨rfl, rfl, rfl⟩

/-- C8 witness: on `pm1` (which registers a bitcoin requirement) the
bitcoin receipt `rc8` verifies and its status becomes `"confirmed"`. -/
theorem receipt_lifecycle_witness :
    (pm1.verify_payment rc8).2.1.status = "confirmed" :=
  ((receipt_lifecycle pm1 req1 "p" "tx" (some "ctx") "r1" "q1" 0 rc8).2.1
    ("ctx", req1) rfl).2.1 rfl

/-! ### The channel balance invariant -/

theorem channelsLE_refl : ∀ l : List PaymentChannel, channelsLE l l := by
  intro l
  induction l with
  | nil => trivial
  | cons c cs ih => exact ⟨rfl, le_refl _, ih⟩

theorem channelsLE_app :
    ∀ (l ext : List PaymentChannel), channelsLE l (l ++ ext) := by
  intro l ext
  induction l with
  | nil => trivial
  | cons c cs ih => exact ⟨rfl, le_refl _, ih⟩

theorem channelsLE_trans :
    ∀ {l1 l2 l3 : List PaymentChannel},
      channelsLE l1 l2 → channelsLE l2 l3 → channelsLE l1 l3 := by
  intro l1
  induction l1 with
  | nil => intro l2 l3 _ _; trivial
  | cons c cs ih =>
    intro l2 l3 h12 h23
    cases l2 with
    | nil => exact absurd h12 (by simp [channelsLE])
    | cons d ds =>
      cases l3 with
      | nil => exact absurd h23 (by simp [channelsLE])
      | cons e es =>
        obtain ⟨hid1, hle1, h1⟩ := h12
        obtain ⟨hid2, hle2, h2⟩ := h23
        exact ⟨hid2.trans hid1, hle2.trans hle1, ih h1 h2⟩

/-- Membership after a Python-dict insert: the new binding or an old one. -/
theorem mem_dictInsert_cases {α : Type} (k : String) (v : α) :
    ∀ (l : List (String × α)) (p : String × α),
      p ∈ dictInsert k v l → p = (k, v) ∨ p ∈ l := by
  intro l
  induction l with
  | nil =>
    intro p hp
    rw [dictInsert] at hp
    exact Or.inl (List.mem_singleton.mp hp)
  | cons q rest ih =>
    intro p hp
    obtain ⟨k', v'⟩ := q
    rw [dictInsert] at hp
    by_cases hk : k' = k
    · rw [if_pos hk] at hp
      rcases List.mem_cons.mp hp with h | h
      · exact Or.inl h
      · exact Or.inr (List.mem_cons_of_mem _ h)
    · rw [if_neg hk] at hp
      rcases List.mem_cons.mp hp with h | h
      · exact Or.inr (by rw [h]; exact List.mem_cons_self _ _)
      · rcases ih p h with h2 | h2
        · exact Or.inl h2
        · exact Or.inr (List.mem_cons_of_mem _ h2)

/-- A successful association-list lookup yields a stored binding. -/
theorem lookup_mem {α : Type} :
    ∀ (l : List (String × α)) (k : String) (v : α),
      l.lookup k = some v → (k, v) ∈ l := by
  intro l
  induction l with
  | nil => intro k v h; exact absurd h (by simp)
  | cons q rest ih =>
    intro k v h
    obtain ⟨k', v'⟩ := q
    rw [List.lookup_cons] at h
    cases hbeq : k == k' with
    | true =>
      rw [hbeq] at h
      have h2 : some v' = some v := h
      injection h2 with h3
      have hk : k = k' := eq_of_beq hbeq
      subst hk
      subst h3
      exact List.mem_cons_self _ _
    | false =>
      rw [hbeq] at h
      have h2 : rest.lookup k = some v := h
      exact List.mem_cons_of_mem _ (ih k v h2)

/-- A successful channel deduction of a nonnegative amount preserves the
balance bounds of every channel and never increases any balance. -/
theorem deduct_some_ok (nd rq : String) (a : ℚ) (ha : 0 ≤ a) :
    ∀ (l l2 : List PaymentChannel), deductFromChannels nd rq a l = some l2 →
      (∀ c ∈ l, 0 ≤ c.current_balance ∧ c.current_balance ≤ c.total_capacity) →
      (∀ c ∈ l2, 0 ≤ c.current_balance ∧ c.current_balance ≤ c.total_capacity) ∧
      channelsLE l l2 := by
  intro l
  induction l with
  | nil => intro l2 h _; exact absurd h (by simp [deductFromChannels])
  | cons c rest ih =>
    intro l2 h hok
    rw [deductFromChannels] at h
    by_cases hm : channelMatches nd rq a c
    · rw [if_pos hm] at h
      injection h with h
      subst h
      have hc := hok c (List.mem_cons_self c rest)
      have hsuff : a ≤ c.current_balance := of_decide_eq_true hm.2.2.2
      constructor
      · intro c' hc'
        rcases List.mem_cons.mp hc' with rfl | hc'
        · constructor
          · show (0 : ℚ) ≤ c.current_balance - a
            linarith
          · show c.current_balance - a ≤ c.total_capacity
            linarith [hc.2]
        · exact hok c' (List.mem_cons_of_mem c hc')
      · exact ⟨rfl, by show c.current_balance - a ≤ c.current_balance; linarith,
          channelsLE_refl rest⟩
    · rw [if_neg hm] at h
      cases hd : deductFromChannels nd rq a rest with
      | none => rw [hd] at h; exact absurd h (by simp)
      | some r2 =>
        rw [hd] at h
        injection h with h
        subst h
        have hrest := ih r2 hd (fun c' hc' => hok c' (List.mem_cons_of_mem c hc'))
        constructor
        · intro c' hc'
          rcases List.mem_cons.mp hc' with he | hc'
          · exact he ▸ hok c (List.mem_cons_self c rest)
          · exact hrest.1 c' hc'
        · exact ⟨rfl, le_refl _, hrest.2⟩

/-- `verify_payment` never touches the channels or the requirements. -/
theorem verify_payment_state (pm : PaymentManager) (rc : PaymentReceipt) :
    (pm.verify_payment rc).2.2.payment_channels = pm.payment_channels ∧
    (pm.verify_payment rc).2.2.payment_requirements = pm.payment_requirements := by
  rw [PaymentManager.verify_payment]
  cases pm.payment_requirements.find?
      (fun p => decide (p.2.currency = rc.currency)) with
  | none => exact ⟨rfl, rfl⟩
  | some q => exact ⟨rfl, rfl⟩

/-- One operation preserves the balance invariant, keeps requirement
amounts nonnegative, and never increases any existing balance — provided
the operation itself registers only nonnegative amounts/capacities. -/
theorem step_preserves (pm : PaymentManager) (op : PaymentOp)
    (h1 : channelsOk pm) (h2 : reqAmountsOk pm) (h3 : opOk op) :
    channelsOk (pm.step op) ∧ reqAmountsOk (pm.step op) ∧
    channelsLE pm.payment_channels (pm.step op).payment_channels := by
  cases op with
  | createRequirement cid pmod amt cur addr exp dsc =>
    refine ⟨h1, ?_, channelsLE_refl _⟩
    intro p hp
    rcases mem_dictInsert_cases cid _ pm.payment_requirements p hp with rfl | hp
    · exact h3
    · exact h2 p hp
  | createReceipt req payer tx ctx rid prid now =>
    exact ⟨h1, h2, channelsLE_refl _⟩
  | verifyReceipt rc =>
    have hst := verify_payment_state pm rc
    refine ⟨?_, ?_, ?_⟩
    · show channelsOk (pm.verify_payment rc).2.2
      unfold channelsOk
      rw [hst.1]
      exact h1
    · show reqAmountsOk (pm.verify_payment rc).2.2
      unfold reqAmountsOk
      rw [hst.2]
      exact h2
    · show channelsLE pm.payment_channels
        (pm.verify_payment rc).2.2.payment_channels
      rw [hst.1]
      exact channelsLE_refl _
  | openChannel chid payer cap cur opn ex =>
    refine ⟨?_, h2, channelsLE_app _ _⟩
    intro c' hc'
    rcases List.mem_append.mp hc' with hc' | hc'
    · exact h1 c' hc'
    · rcases List.mem_singleton.mp hc' with rfl
      exact ⟨h3, le_refl _⟩
  | closeChannel chid =>
    refine ⟨?_, h2, ?_⟩
    · intro c' hc'
      rcases List.mem_map.mp hc' with ⟨c, hc, rfl⟩
      have hb := h1 c hc
      by_cases hid : c.channel_id = chid <;> simpa [hid] using hb
    · have hgen : ∀ l : List PaymentChannel, channelsLE l
          (l.map (fun c =>
            if c.channel_id = chid then { c with status := "closed" } else c)) := by
        intro l
        induction l with
        | nil => trivial
        | cons c cs ih =>
          refine ⟨?_, ?_, ih⟩ <;>
            by_cases hid : c.channel_id = chid <;> simp [hid]
      exact hgen pm.payment_channels
  | authorize now ctx rq =>
    show channelsOk (pm.check_payment_for_context now ctx rq).2 ∧
      reqAmountsOk (pm.check_payment_for_context now ctx rq).2 ∧
      channelsLE pm.payment_channels
        (pm.check_payment_for_context now ctx rq).2.payment_channels
    cases hl : pm.payment_requirements.lookup ctx with
    | none =>
      rw [check_none_of_noreq pm now ctx rq hl]
      exact ⟨h1, h2, channelsLE_refl _⟩
    | some r =>
      cases hexp : r.is_expired now with
      | true =>
        rw [check_none_of_expired pm now ctx rq r hl hexp]
        exact ⟨h1, h2, channelsLE_refl _⟩
      | false =>
        cases hrec : pm.hasConfirmedReceipt ctx rq with
        | true =>
          rw [check_none_of_receipt pm now ctx rq r hl hexp hrec]
          exact ⟨h1, h2, channelsLE_refl _⟩
        | false =>
          cases hd : deductFromChannels pm.node_did rq r.amount
              pm.payment_channels with
          | some ch2 =>
            rw [check_of_deduct pm now ctx rq r ch2 hl hexp hrec hd]
            have ha : 0 ≤ r.amount :=
              h2 (ctx, r) (lookup_mem pm.payment_requirements ctx r hl)
            have hded := deduct_some_ok pm.node_did rq r.amount ha
              pm.payment_channels ch2 hd h1
            exact ⟨hded.1, h2, hded.2⟩
          | none =>
            rw [check_payment_required pm now ctx rq r hl hexp hrec hd]
            exact ⟨h1, h2, channelsLE_refl _⟩

/-- C2 counterexample: starting from the empty manager `pm0`, registering
a requirement with the negative amount `-1` and authorizing against a
fresh capacity-1 channel drives the balance to 2 > capacity 1 (the
deduction of a negative amount increases the balance); and opening a
channel with capacity `-1` initializes the balance to `-1 < 0`. Both
violate `0 <= current_balance <= total_capacity` and "the balance never
increases", refuting the claim for arbitrary operation sequences. -/
theorem channel_invariant_cex :
    ((pm0.run ops2c).payment_channels.map
      (fun c => (c.current_balance, c.total_capacity)) = [(2, 1)]) ∧
    ¬ channelsOk (pm0.run ops2c) ∧
    ((pm0.run ops2o).payment_channels.map
      (fun c => (c.current_balance, c.total_capacity)) = [(-1, -1)]) ∧
    ¬ channelsOk (pm0.run ops2o) := by
  have hd : deductFromChannels "n" "p" reqN.amount [chA] =
      some [{ chA with current_balance := chA.current_balance - reqN.amount }] := by
    rw [deductFromChannels, if_pos (by decide)]
  have heq := check_of_deduct pmB 0 "ctx" "p" reqN _ rfl rfl rfl hd
  have hrun : pm0.run ops2c = (pmB.check_payment_for_context 0 "ctx" "p").2 := rfl
  rw [heq] at hrun
  refine ⟨?_, ?_, rfl, ?_⟩
  · rw [hrun]
    show [(chA.current_balance - reqN.amount, chA.total_capacity)] = [(2, 1)]
    norm_num [chA, reqN]
  · intro hok
    rw [hrun] at hok
    have hb := (hok _ (List.mem_singleton_self _)).2
    have hb2 : chA.current_balance - reqN.amount ≤ chA.total_capacity := hb
    norm_num [chA, reqN] at hb2
  · intro hok
    have hb := (hok _ (List.mem_singleton_self _)).1
    have hb2 : (0 : ℚ) ≤ -1 := hb
    norm_num at hb2

/-- C2 amended: provided every requirement amount already registered and
registered along the way, and every opened channel capacity, is
nonnegative, the invariant `0 <= current_balance <= total_capacity`
holds for every channel after every sequence of operations, and no
existing channel's balance ever increases (`channelsLE`). The proviso is
forced by the counterexample: the source accepts arbitrary `Decimal`
strings, and a negative amount makes the "deduction" a top-up. -/
theorem channel_invariant_of_nonneg (pm : PaymentManager)
    (ops : List PaymentOp) (h1 : channelsOk pm) (h2 : reqAmountsOk pm)
    (hops : ∀ op ∈ ops, opOk op) :
    channelsOk (pm.run ops) ∧
    channelsLE pm.payment_channels (pm.run ops).payment_channels := by
  induction ops generalizing pm with
  | nil => exact ⟨h1, channelsLE_refl _⟩
  | cons op ops ih =>
    have hstep := step_preserves pm op h1 h2 (hops op (List.mem_cons_self _ _))
    have hrest := ih (pm.step op) hstep.1 hstep.2.1
      (fun o ho => hops o (List.mem_cons_of_mem _ ho))
    exact ⟨hrest.1, channelsLE_trans hstep.2.2 hrest.2⟩

/-- C2 witness: a benign sequence — register amount 1, open capacity 5,
authorize twice — keeps every channel within its bounds and
nonincreasing. -/
theorem channel_invariant_of_nonneg_witness :
    channelsOk (pm0.run ops2w) ∧
    channelsLE pm0.payment_channels (pm0.run ops2w).payment_channels :=
  channel_invariant_of_nonneg pm0 ops2w (by decide) (by decide) (by decide)

end PsiNet
